import Mathlib

/-!
Verification of the DnsResolver core against its design specification.

Part 1 embeds `res_stats.cpp` (server reachability statistics and the
usable-server computation).  Later parts model the DNS-over-TLS query map,
the private-DNS configuration state machine and the resolution pipeline's
retry discipline, which are exercised by the test sources in this tree.

Machine integers are modelled as `Nat` (all the quantities involved are
non-negative in the C code: counters, rcodes, rtt values) except times,
which are modelled as `Int` (`time_t` differences can be negative).
-/

namespace DnsResolver

/-! ### RCODE constants

From `arpa/nameser.h` (standard DNS response codes) and
`netd_resolv/stats.h` (the two private extension codes referenced by
`resolv_private.h`). -/

def NOERROR : Nat := 0

def FORMERR : Nat := 1

def SERVFAIL : Nat := 2

def NXDOMAIN : Nat := 3

def NOTIMP : Nat := 4

def REFUSED : Nat := 5

def NOTAUTH : Nat := 9

def RCODE_INTERNAL_ERROR : Nat := 254

def RCODE_TIMEOUT : Nat := 255

/-! ### Data model of `netd_resolv/stats.h` -/

/-- One reachability sample: `struct res_sample { time_t at; uint16_t rtt; uint8_t rcode; }`. -/
structure res_sample where
  «at» : Int
  rtt : Nat
  rcode : Nat
deriving DecidableEq

/-- `struct res_stats`: the ring buffer of stored samples.  The C struct is a
fixed array `samples[MAXNSSAMPLES]` together with `sample_count` and
`sample_next`; we model the occupied portion `samples[0 .. sample_count)` as a
list (so `sample_count = samples.length`) and keep the write cursor
`sample_next`. -/
structure res_stats where
  samples : List res_sample
  sample_next : Nat
deriving DecidableEq

/-- `struct res_params` (the tunables named in the spec's data model). -/
structure res_params where
  sample_validity : Nat
  success_threshold : Nat
  min_samples : Nat
  max_samples : Nat
  base_timeout_msec : Nat
  retry_count : Nat
deriving DecidableEq

/-! ### `android_net_res_stats_aggregate` -/

/-- The bucket a sample falls into, per the `switch` in
`android_net_res_stats_aggregate`. -/
inductive SampleBucket where
  | success
  | error
  | timeout
  | internal_error
deriving DecidableEq

/-- The `switch (stats->samples[i].rcode)` of `android_net_res_stats_aggregate`:
`NOERROR`, `NOTAUTH`, `NXDOMAIN` count as successes; `RCODE_TIMEOUT` and
`RCODE_INTERNAL_ERROR` have their own buckets; `SERVFAIL`, `NOTIMP`, `REFUSED`
and the `default` arm count as errors. -/
def classifyRcode (rc : Nat) : SampleBucket :=
  if rc = NOERROR ∨ rc = NOTAUTH ∨ rc = NXDOMAIN then .success
  else if rc = RCODE_TIMEOUT then .timeout
  else if rc = RCODE_INTERNAL_ERROR then .internal_error
  else .error

/-- Loop accumulator of `android_net_res_stats_aggregate`:
`s`, `e`, `t`, `ie`, `rtt_sum`, `rtt_count`. -/
structure AggAcc where
  s : Nat
  e : Nat
  t : Nat
  ie : Nat
  rtt_sum : Nat
  rtt_count : Nat
deriving DecidableEq

/-- One iteration of the aggregation loop body. -/
def aggAddSample (smp : res_sample) (acc : AggAcc) : AggAcc :=
  match classifyRcode smp.rcode with
  | .success =>
      { acc with s := acc.s + 1, rtt_sum := acc.rtt_sum + smp.rtt,
                 rtt_count := acc.rtt_count + 1 }
  | .timeout => { acc with t := acc.t + 1 }
  | .internal_error => { acc with ie := acc.ie + 1 }
  | .error => { acc with e := acc.e + 1 }

/-- The aggregation loop over the stored samples.  (The C loop runs
front-to-back and only increments counters, so folding from the head is
equivalent.) -/
def aggLoop : List res_sample → AggAcc
  | [] => ⟨0, 0, 0, 0, 0, 0⟩
  | smp :: rest => aggAddSample smp (aggLoop rest)

/-- Output record of `android_net_res_stats_aggregate` (the values written
through the out-parameters). -/
structure res_stats_agg where
  successes : Nat
  errors : Nat
  timeouts : Nat
  internal_errors : Nat
  rtt_avg : Int
  last_sample_time : Int
deriving DecidableEq

/-- `android_net_res_stats_aggregate` of `res_stats.cpp`: bucket counts, the
average RTT over successful samples (`-1` when there was none), and the time
of the most recently written sample (`samples[sample_next-1].at` when
`sample_next > 0`, else `samples[sample_count-1].at`, else `0`). -/
def android_net_res_stats_aggregate (stats : res_stats) : res_stats_agg :=
  let acc := aggLoop stats.samples
  { successes := acc.s
    errors := acc.e
    timeouts := acc.t
    internal_errors := acc.ie
    rtt_avg := if acc.rtt_count > 0 then ((acc.rtt_sum / acc.rtt_count : Nat) : Int) else -1
    last_sample_time :=
      if stats.samples.length > 0 then
        if stats.sample_next > 0 then
          (stats.samples.getD (stats.sample_next - 1) ⟨0, 0, 0⟩).«at»
        else
          (stats.samples.getD (stats.samples.length - 1) ⟨0, 0, 0⟩).«at»
      else 0 }

/-! ### `res_stats_usable_server` and `android_net_res_stats_get_usable_servers` -/

/-- `_res_stats_clear_samples`: `stats->sample_count = stats->sample_next = 0`. -/
def res_stats_clear_samples (_stats : res_stats) : res_stats :=
  { samples := [], sample_next := 0 }

/-- `res_stats_usable_server` of `res_stats.cpp`.  The C function takes the
current wall-clock time via `time(NULL)`; we pass `now` explicitly.  It may
mutate `*stats` (clearing stale samples), so the model returns the usable flag
together with the updated stats.  The guard `successes >= 0 && errors >= 0 &&
timeouts >= 0` of the C code always holds (the aggregate call assigns
non-negative counts), so it is not represented. -/
def res_stats_usable_server (params : res_params) (stats : res_stats) (now : Int) :
    Bool × res_stats :=
  let agg := android_net_res_stats_aggregate stats
  let total := agg.successes + agg.errors + agg.timeouts
  if total ≥ params.min_samples ∧ (agg.errors > 0 ∨ agg.timeouts > 0) then
    if agg.successes * 100 / total < params.success_threshold then
      if now - agg.last_sample_time > (params.sample_validity : Int) then
        (true, res_stats_clear_samples stats)
      else
        (false, stats)
    else (true, stats)
  else (true, stats)

/-- `android_net_res_stats_get_usable_servers` of `res_stats.cpp`.  The C
function fills `usable_servers[]` and returns the number of usable servers;
it also mutates the per-server stats through `res_stats_usable_server`.  The
model returns (return value, usable_servers array, updated stats array). -/
def android_net_res_stats_get_usable_servers (params : res_params)
    (stats : List res_stats) (now : Int) : Nat × List Bool × List res_stats :=
  let per := stats.map (fun st => res_stats_usable_server params st now)
  let usable := per.map (fun r => r.1)
  let usable_servers_found := (usable.filter (fun b => b)).length
  if usable_servers_found = 0 then
    (stats.length, usable.map (fun _ => true), per.map (fun r => r.2))
  else
    (usable_servers_found, usable, per.map (fun r => r.2))

/-! ### Spec-side classification predicates (from the spec's data model:
"Success set = {NOERROR, NXDOMAIN, NOTAUTH}; error set = {SERVFAIL, NOTIMP,
REFUSED, FORMERR, unknowns}; timeout and internal-error are their own
buckets.")  These are compared against the source's `classifyRcode`. -/

def isSuccessRcode (rc : Nat) : Bool :=
  rc == NOERROR || rc == NXDOMAIN || rc == NOTAUTH

def isTimeoutRcode (rc : Nat) : Bool :=
  rc == RCODE_TIMEOUT

def isInternalErrorRcode (rc : Nat) : Bool :=
  rc == RCODE_INTERNAL_ERROR

def isErrorRcode (rc : Nat) : Bool :=
  !isSuccessRcode rc && !isTimeoutRcode rc && !isInternalErrorRcode rc

/-- Spec-side condition (from 4.B): `total ≥ min_samples` AND `e+t > 0` AND
`s·100/total < success_threshold_pct`. -/
def lowSuccessRate (params : res_params) (stats : res_stats) : Prop :=
  (android_net_res_stats_aggregate stats).successes +
      (android_net_res_stats_aggregate stats).errors +
      (android_net_res_stats_aggregate stats).timeouts ≥ params.min_samples ∧
  0 < (android_net_res_stats_aggregate stats).errors +
      (android_net_res_stats_aggregate stats).timeouts ∧
  (android_net_res_stats_aggregate stats).successes * 100 /
      ((android_net_res_stats_aggregate stats).successes +
        (android_net_res_stats_aggregate stats).errors +
        (android_net_res_stats_aggregate stats).timeouts) < params.success_threshold

/-- Spec-side condition (from 4.B): the last sample's age exceeds
`sample_validity_s`. -/
def samplesStale (params : res_params) (stats : res_stats) (now : Int) : Prop :=
  now - (android_net_res_stats_aggregate stats).last_sample_time >
    (params.sample_validity : Int)

end DnsResolver

namespace DnsResolver

/-! ### Lemmas about the aggregation loop -/

theorem aggLoop_spec (l : List res_sample) :
    (aggLoop l).s = l.countP (fun smp => isSuccessRcode smp.rcode) ∧
    (aggLoop l).e = l.countP (fun smp => isErrorRcode smp.rcode) ∧
    (aggLoop l).t = l.countP (fun smp => isTimeoutRcode smp.rcode) ∧
    (aggLoop l).ie = l.countP (fun smp => isInternalErrorRcode smp.rcode) ∧
    (aggLoop l).rtt_count = l.countP (fun smp => isSuccessRcode smp.rcode) ∧
    (aggLoop l).rtt_sum =
      ((l.filter (fun smp => isSuccessRcode smp.rcode)).map (fun smp => smp.rtt)).sum := by
  induction l with
  | nil => exact ⟨rfl, rfl, rfl, rfl, rfl, rfl⟩
  | cons smp rest ih =>
      obtain ⟨ih1, ih2, ih3, ih4, ih5, ih6⟩ := ih
      rw [aggLoop, aggAddSample]
      by_cases h0 : smp.rcode = 0 <;> by_cases h3 : smp.rcode = 3 <;>
        by_cases h9 : smp.rcode = 9 <;> by_cases h254 : smp.rcode = 254 <;>
        by_cases h255 : smp.rcode = 255 <;>
        simp_all [List.countP_cons, List.filter_cons, classifyRcode, isSuccessRcode,
          isTimeoutRcode, isInternalErrorRcode, isErrorRcode, NOERROR, NXDOMAIN, NOTAUTH,
          RCODE_TIMEOUT, RCODE_INTERNAL_ERROR] <;>
        omega

end DnsResolver

namespace DnsResolver

theorem bucket_partition (l : List res_sample) :
    l.countP (fun smp => isSuccessRcode smp.rcode) +
      l.countP (fun smp => isErrorRcode smp.rcode) +
      l.countP (fun smp => isTimeoutRcode smp.rcode) +
      l.countP (fun smp => isInternalErrorRcode smp.rcode) = l.length := by
  induction l with
  | nil => rfl
  | cons smp rest ih =>
      by_cases h0 : smp.rcode = 0 <;> by_cases h3 : smp.rcode = 3 <;>
        by_cases h9 : smp.rcode = 9 <;> by_cases h254 : smp.rcode = 254 <;>
        by_cases h255 : smp.rcode = 255 <;>
        simp_all [List.countP_cons, isErrorRcode, isSuccessRcode, isTimeoutRcode,
          isInternalErrorRcode, NOERROR, NXDOMAIN, NOTAUTH, RCODE_TIMEOUT,
          RCODE_INTERNAL_ERROR] <;>
        omega

/-- C3: `android_net_res_stats_aggregate` counts each stored sample in exactly
one bucket determined by its rcode: NOERROR, NXDOMAIN and NOTAUTH as
successes; the timeout code as a timeout; the internal-error code as an
internal error; and every other code (SERVFAIL, NOTIMP, REFUSED, FORMERR,
unknowns) as an error.  The buckets partition the samples, so the spec's
`total = s+e+t` excludes internal errors: `s+e+t+ie` equals the sample
count. -/
theorem claim_C3_aggregate_buckets (stats : res_stats) :
    (android_net_res_stats_aggregate stats).successes =
      stats.samples.countP (fun smp => isSuccessRcode smp.rcode) ∧
    (android_net_res_stats_aggregate stats).timeouts =
      stats.samples.countP (fun smp => isTimeoutRcode smp.rcode) ∧
    (android_net_res_stats_aggregate stats).internal_errors =
      stats.samples.countP (fun smp => isInternalErrorRcode smp.rcode) ∧
    (android_net_res_stats_aggregate stats).errors =
      stats.samples.countP (fun smp => isErrorRcode smp.rcode) ∧
    isErrorRcode SERVFAIL = true ∧ isErrorRcode NOTIMP = true ∧
    isErrorRcode REFUSED = true ∧ isErrorRcode FORMERR = true ∧
    (android_net_res_stats_aggregate stats).successes +
      (android_net_res_stats_aggregate stats).errors +
      (android_net_res_stats_aggregate stats).timeouts +
      (android_net_res_stats_aggregate stats).internal_errors =
      stats.samples.length := by
  obtain ⟨h1, h2, h3, h4, h5, h6⟩ := aggLoop_spec stats.samples
  refine ⟨?_, ?_, ?_, ?_, by decide, by decide, by decide, by decide, ?_⟩ <;>
    simp only [android_net_res_stats_aggregate, h1, h2, h3, h4]
  exact bucket_partition stats.samples

/-- C10: if no stored sample has an rcode in the success set, the aggregate
reports `rtt_avg = -1`; otherwise it reports the truncated integer mean of
the rtt values of exactly the successful samples. -/
theorem claim_C10_rtt_avg_sentinel (stats : res_stats) :
    (android_net_res_stats_aggregate stats).rtt_avg =
      (if (stats.samples.filter (fun smp => isSuccessRcode smp.rcode)).length = 0 then (-1 : Int)
       else (((((stats.samples.filter (fun smp => isSuccessRcode smp.rcode)).map
                  (fun smp => smp.rtt)).sum /
               (stats.samples.filter (fun smp => isSuccessRcode smp.rcode)).length : Nat)) : Int)) := by
  obtain ⟨h1, h2, h3, h4, h5, h6⟩ := aggLoop_spec stats.samples
  simp only [android_net_res_stats_aggregate, h5, h6, List.countP_eq_length_filter]
  by_cases h : (stats.samples.filter (fun smp => isSuccessRcode smp.rcode)).length = 0 <;>
    simp [h, Nat.pos_of_ne_zero]

/-- C2: the per-server usability decision: the server is declared not usable
exactly when `total ≥ min_samples`, `errors + timeouts > 0` and
`successes*100/total < success_threshold` hold and the samples are not stale;
when that success-rate condition holds but the age of the last sample exceeds
`sample_validity`, the stored samples are cleared and the server is treated
as usable; in every other case the server is usable and the samples are left
as they are. -/
theorem claim_C2_usable_server_decision (params : res_params) (stats : res_stats) (now : Int) :
    ((res_stats_usable_server params stats now).1 = false ↔
      (lowSuccessRate params stats ∧ ¬ samplesStale params stats now)) ∧
    (lowSuccessRate params stats ∧ samplesStale params stats now →
      res_stats_usable_server params stats now = (true, res_stats_clear_samples stats)) ∧
    (¬ lowSuccessRate params stats →
      res_stats_usable_server params stats now = (true, stats)) := by
  have hbridge : (0 < (android_net_res_stats_aggregate stats).errors +
        (android_net_res_stats_aggregate stats).timeouts) ↔
      ((android_net_res_stats_aggregate stats).errors > 0 ∨
        (android_net_res_stats_aggregate stats).timeouts > 0) := by omega
  unfold res_stats_usable_server lowSuccessRate samplesStale
  by_cases h1 : (android_net_res_stats_aggregate stats).successes +
      (android_net_res_stats_aggregate stats).errors +
      (android_net_res_stats_aggregate stats).timeouts ≥ params.min_samples <;>
    by_cases he : (android_net_res_stats_aggregate stats).errors > 0 ∨
      (android_net_res_stats_aggregate stats).timeouts > 0 <;>
    by_cases h2 : (android_net_res_stats_aggregate stats).successes * 100 /
        ((android_net_res_stats_aggregate stats).successes +
          (android_net_res_stats_aggregate stats).errors +
          (android_net_res_stats_aggregate stats).timeouts) < params.success_threshold <;>
    by_cases h3 : now - (android_net_res_stats_aggregate stats).last_sample_time >
        (params.sample_validity : Int) <;>
    simp [h1, he, h2, h3, hbridge]

/-- C2 witness: a concrete unusable server (8 timeout samples, fresh). -/
theorem claim_C2_usable_server_decision_witness :
    (((res_stats_usable_server ⟨1800, 25, 8, 8, 1000, 2⟩
          ⟨List.replicate 8 ⟨100, 0, 255⟩, 0⟩ 100).1 = false ↔
      (lowSuccessRate ⟨1800, 25, 8, 8, 1000, 2⟩ ⟨List.replicate 8 ⟨100, 0, 255⟩, 0⟩ ∧
        ¬ samplesStale ⟨1800, 25, 8, 8, 1000, 2⟩ ⟨List.replicate 8 ⟨100, 0, 255⟩, 0⟩ 100)) ∧
    (lowSuccessRate ⟨1800, 25, 8, 8, 1000, 2⟩ ⟨List.replicate 8 ⟨100, 0, 255⟩, 0⟩ ∧
        samplesStale ⟨1800, 25, 8, 8, 1000, 2⟩ ⟨List.replicate 8 ⟨100, 0, 255⟩, 0⟩ 100 →
      res_stats_usable_server ⟨1800, 25, 8, 8, 1000, 2⟩
          ⟨List.replicate 8 ⟨100, 0, 255⟩, 0⟩ 100 =
        (true, res_stats_clear_samples ⟨List.replicate 8 ⟨100, 0, 255⟩, 0⟩)) ∧
    (¬ lowSuccessRate ⟨1800, 25, 8, 8, 1000, 2⟩ ⟨List.replicate 8 ⟨100, 0, 255⟩, 0⟩ →
      res_stats_usable_server ⟨1800, 25, 8, 8, 1000, 2⟩
          ⟨List.replicate 8 ⟨100, 0, 255⟩, 0⟩ 100 =
        (true, ⟨List.replicate 8 ⟨100, 0, 255⟩, 0⟩))) :=
  claim_C2_usable_server_decision ⟨1800, 25, 8, 8, 1000, 2⟩
    ⟨List.replicate 8 ⟨100, 0, 255⟩, 0⟩ 100

/-- C1: when the per-server usability test marks no server of a non-empty
array as usable, `android_net_res_stats_get_usable_servers` sets every entry
of the output array to `true` and returns the server count. -/
theorem claim_C1_permissive_fallback (params : res_params) (stats : List res_stats)
    (now : Int) (hne : stats ≠ [])
    (hall : ∀ st ∈ stats, (res_stats_usable_server params st now).1 = false) :
    (android_net_res_stats_get_usable_servers params stats now).1 = stats.length ∧
    (android_net_res_stats_get_usable_servers params stats now).2.1 =
      List.replicate stats.length true := by
  unfold android_net_res_stats_get_usable_servers
  have hfound : (((stats.map (fun st => res_stats_usable_server params st now)).map
      (fun r => r.1)).filter (fun b => b)) = [] := by
    rw [List.filter_eq_nil_iff]
    intro b hb
    simp only [List.mem_map] at hb
    obtain ⟨r, ⟨st, hst, rfl⟩, rfl⟩ := hb
    simp [hall st hst]
  simp only []
  rw [hfound]
  simp [List.map_const']

/-- C1 witness: with one server whose 8 stored samples are all timeouts, the
per-server test fails, and the fallback marks the full list usable. -/
theorem claim_C1_permissive_fallback_witness :
    (android_net_res_stats_get_usable_servers ⟨1800, 25, 8, 8, 1000, 2⟩
        [⟨List.replicate 8 ⟨100, 0, 255⟩, 0⟩] 100).1 = 1 ∧
    (android_net_res_stats_get_usable_servers ⟨1800, 25, 8, 8, 1000, 2⟩
        [⟨List.replicate 8 ⟨100, 0, 255⟩, 0⟩] 100).2.1 = [true] := by
  simpa using claim_C1_permissive_fallback ⟨1800, 25, 8, 8, 1000, 2⟩
    [⟨List.replicate 8 ⟨100, 0, 255⟩, 0⟩] 100 (by decide) (by decide)

end DnsResolver

namespace DnsResolver

/-! ### Part 2: the DNS-over-TLS query map and transport back-pressure

`DnsTlsQueryMap` and `DnsTlsTransport` are not part of this tree; only
their unit tests are (`tests/resolv_tls_unit_test.cpp`: `QueryMapTest.Basic`,
`QueryMapTest.FillHole`, `TransportTest.IdExhaustion`).  The definitions
below are modelled from the spec (§4.D query map, §4.E back-pressure),
refined to the deterministic id-allocation order that the in-tree tests
observe (ids 0,1,2,… for a fresh map; the freed id is the next one handed
out when the map was full).  Queries and responses are byte lists; the id
is big-endian in the first two octets. -/

/-- Modelled from the spec: the 16-bit id in the first two octets of a DNS
message (big-endian). -/
def getWireId (bytes : List Nat) : Nat :=
  bytes.getD 0 0 * 256 + bytes.getD 1 0

/-- Modelled from the spec: rewrite the first two octets of a message with
the given id (big-endian byte writes). -/
def setWireId (id : Nat) (bytes : List Nat) : List Nat :=
  (id / 256 % 256) :: (id % 256) :: bytes.drop 2

/-- Modelled from the spec: a pending entry of the query map — the minted
`newId`, the caller's original id, and the caller's query bytes. -/
structure QMQuery where
  newId : Nat
  originalId : Nat
  query : List Nat
deriving DecidableEq

/-- Modelled from the spec: `DnsTlsQueryMap`, a map from on-wire ids to
pending entries, kept as an association list. -/
structure DnsTlsQueryMap where
  queries : List (Nat × QMQuery)
deriving DecidableEq

/-- The multiset of occupied on-wire ids. -/
def qmOccupied (m : DnsTlsQueryMap) : List Nat :=
  m.queries.map (fun p => p.1)

/-- Modelled from the spec: scan for the smallest unused id starting at
`next`, with `fuel` ids left to try. -/
def scanFreeId (occupied : List Nat) : Nat → Nat → Option Nat
  | 0, _ => none
  | fuel + 1, next =>
      if next ∈ occupied then scanFreeId occupied fuel (next + 1) else some next

/-- Modelled from the spec: mint a currently-unused 16-bit id, or `none`
when all 65536 ids are occupied. -/
def getFreeId (m : DnsTlsQueryMap) : Option Nat :=
  scanFreeId (qmOccupied m) 65536 0

/-- Modelled from the spec: `recordQuery` mints a free id, stores the
caller's original id and bytes under it, and returns the new entry (the
"future") together with the updated map; `none` when the id space is
exhausted. -/
def recordQuery (q : List Nat) (m : DnsTlsQueryMap) :
    Option (QMQuery × DnsTlsQueryMap) :=
  match getFreeId m with
  | none => none
  | some id => some (⟨id, getWireId q, q⟩, ⟨(id, ⟨id, getWireId q, q⟩) :: m.queries⟩)

/-- Result codes of a query future (spec §3, "Query future"). -/
inductive QMResponse where
  | success
  | network_error
  | limit_error
  | internal_error
deriving DecidableEq

/-- A resolved future value: code plus response bytes. -/
structure QMResult where
  code : QMResponse
  response : List Nat
deriving DecidableEq

/-- Association-list lookup by on-wire id. -/
def qmLookup : List (Nat × QMQuery) → Nat → Option QMQuery
  | [], _ => none
  | (k, v) :: rest, id => if k = id then some v else qmLookup rest id

/-- Remove the entry with the given on-wire id. -/
def qmErase (l : List (Nat × QMQuery)) (id : Nat) : List (Nat × QMQuery) :=
  l.filter (fun p => !(p.1 == id))

/-- Modelled from the spec: `onResponse` reads the wire id from the first
two octets, looks up the pending entry, restores the caller's original id in
the response bytes and resolves that entry's future with `success`.  The
model returns which entry was resolved (with its result) and the map with
that entry removed; a short or unknown response resolves nothing. -/
def onResponse (resp : List Nat) (m : DnsTlsQueryMap) :
    Option (Nat × QMResult) × DnsTlsQueryMap :=
  if resp.length < 2 then (none, m)
  else
    match qmLookup m.queries (getWireId resp) with
    | none => (none, m)
    | some fut =>
        (some (getWireId resp, ⟨.success, setWireId fut.originalId resp⟩),
          ⟨qmErase m.queries (getWireId resp)⟩)

/-- Modelled from the spec: the transport hands a new query to the query
map; when the map is full the query resolves immediately with
`internal_error` and an empty response, and the map (the pending queries)
is untouched. -/
def transportQuery (m : DnsTlsQueryMap) (q : List Nat) :
    DnsTlsQueryMap × Option QMResult :=
  match recordQuery q m with
  | none => (m, some ⟨.internal_error, []⟩)
  | some (_, m2) => (m2, none)

end DnsResolver

namespace DnsResolver

theorem scanFreeId_eq_none_iff (occ : List Nat) (fuel : Nat) :
    ∀ next, (scanFreeId occ fuel next = none ↔
      ∀ j, next ≤ j → j < next + fuel → j ∈ occ) := by
  induction fuel with
  | zero =>
      intro next
      simp only [scanFreeId]
      constructor
      · intro _ j h1 h2
        omega
      · intro _
        trivial
  | succ fuel ih =>
      intro next
      simp only [scanFreeId]
      by_cases hmem : next ∈ occ
      · rw [if_pos hmem, ih]
        constructor
        · intro h j h1 h2
          rcases Nat.eq_or_lt_of_le h1 with rfl | hlt
          · exact hmem
          · exact h j hlt (by omega)
        · intro h j h1 h2
          exact h j (by omega) (by omega)
      · rw [if_neg hmem]
        constructor
        · intro h
          cases h
        · intro h
          exact absurd (h next (Nat.le_refl _) (by omega)) hmem

theorem scanFreeId_eq_some (occ : List Nat) (fuel : Nat) :
    ∀ next j, scanFreeId occ fuel next = some j →
      j ∉ occ ∧ next ≤ j ∧ j < next + fuel ∧ ∀ i, next ≤ i → i < j → i ∈ occ := by
  induction fuel with
  | zero =>
      intro next j h
      cases h
  | succ fuel ih =>
      intro next j h
      rw [scanFreeId] at h
      by_cases hmem : next ∈ occ
      · rw [if_pos hmem] at h
        obtain ⟨hj1, hj2, hj3, hj4⟩ := ih (next + 1) j h
        refine ⟨hj1, by omega, by omega, ?_⟩
        intro i h1 h2
        rcases Nat.eq_or_lt_of_le h1 with rfl | hlt
        · exact hmem
        · exact hj4 i (by omega) h2
      · rw [if_neg hmem] at h
        injection h with h
        subst h
        exact ⟨hmem, Nat.le_refl _, by omega, fun i h1 h2 => absurd h2 (by omega)⟩

theorem scanFreeId_finds (occ : List Nat) (fuel : Nat) :
    ∀ next k, k ∉ occ → (∀ i, next ≤ i → i < k → i ∈ occ) →
      next ≤ k → k < next + fuel → scanFreeId occ fuel next = some k := by
  induction fuel with
  | zero =>
      intro next k _ _ h1 h2
      omega
  | succ fuel ih =>
      intro next k hk hlow h1 h2
      rw [scanFreeId]
      rcases Nat.eq_or_lt_of_le h1 with rfl | hlt
      · rw [if_neg hk]
      · rw [if_pos (hlow next (Nat.le_refl _) hlt)]
        exact ih (next + 1) k hk (fun i hi1 hi2 => hlow i (by omega) hi2) (by omega) (by omega)

theorem qmLookup_isSome_of_mem (l : List (Nat × QMQuery)) (id : Nat)
    (h : id ∈ l.map (fun p => p.1)) : ∃ v, qmLookup l id = some v := by
  induction l with
  | nil => simp at h
  | cons p rest ih =>
      rw [qmLookup]
      by_cases hp : p.1 = id
      · rw [if_pos hp]
        exact ⟨p.2, rfl⟩
      · rw [if_neg hp]
        apply ih
        simp only [List.map_cons, List.mem_cons] at h
        rcases h with h | h
        · exact absurd h.symm hp
        · exact h

theorem qmErase_occupied (l : List (Nat × QMQuery)) (id i : Nat) :
    i ∈ (qmErase l id).map (fun p => p.1) ↔ i ∈ l.map (fun p => p.1) ∧ i ≠ id := by
  simp only [qmErase, List.mem_map, List.mem_filter, bne_iff_ne, ne_eq]
  constructor
  · rintro ⟨p, ⟨hp, hne⟩, rfl⟩
    refine ⟨⟨p, hp, rfl⟩, ?_⟩
    simpa using hne
  · rintro ⟨⟨p, hp, rfl⟩, hne⟩
    exact ⟨p, ⟨hp, by simpa using hne⟩, rfl⟩

theorem qmLookup_erase_ne (l : List (Nat × QMQuery)) (id k : Nat) (hk : k ≠ id) :
    qmLookup (qmErase l id) k = qmLookup l k := by
  unfold qmErase
  induction l with
  | nil => rfl
  | cons p rest ih =>
      simp only [List.filter_cons]
      by_cases hp : p.1 = id
      · have hpk : ¬ p.1 = k := by omega
        simp [hp, qmLookup, Ne.symm hk, ih]
      · have hpb : (!(p.1 == id)) = true := by simp [hp]
        rw [hpb]
        simp only [if_true]
        rw [qmLookup, qmLookup, ih]

end DnsResolver

namespace DnsResolver

/-- C4: recording a query mints a currently-unused 16-bit `newId` (storing
the caller's original id and bytes) and returns `none` exactly when all
65536 ids are occupied; at the transport level a query arriving with the id
space full resolves immediately with `internal_error` and an empty response
while the map of pending queries is untouched; and after a pending entry is
answered, its id is the one minted for the next recorded query. -/
theorem claim_C4_id_allocation (m : DnsTlsQueryMap) (q : List Nat) :
    (recordQuery q m = none ↔ ∀ id, id < 65536 → id ∈ qmOccupied m) ∧
    (∀ fut m2, recordQuery q m = some (fut, m2) →
      fut.newId < 65536 ∧ fut.newId ∉ qmOccupied m ∧
      fut.originalId = getWireId q ∧ fut.query = q ∧
      qmOccupied m2 = fut.newId :: qmOccupied m) ∧
    ((∀ id, id < 65536 → id ∈ qmOccupied m) →
      transportQuery m q = (m, some ⟨QMResponse.internal_error, []⟩)) ∧
    (∀ resp, (∀ id, id < 65536 → id ∈ qmOccupied m) →
      2 ≤ resp.length → getWireId resp < 65536 →
      recordQuery q (onResponse resp m).2 =
        some (⟨getWireId resp, getWireId q, q⟩,
          ⟨(getWireId resp, ⟨getWireId resp, getWireId q, q⟩) ::
            qmErase m.queries (getWireId resp)⟩)) := by
  have hnone : recordQuery q m = none ↔ getFreeId m = none := by
    unfold recordQuery
    cases h : getFreeId m <;> simp [h]
  have hiff : recordQuery q m = none ↔ ∀ id, id < 65536 → id ∈ qmOccupied m := by
    rw [hnone]
    unfold getFreeId
    rw [scanFreeId_eq_none_iff]
    constructor
    · intro h id hid
      exact h id (Nat.zero_le _) (by omega)
    · intro h j _ hj
      exact h j (by omega)
  refine ⟨hiff, ?_, ?_, ?_⟩
  · intro fut m2 hrec
    unfold recordQuery at hrec
    cases hfree : getFreeId m with
    | none =>
        rw [hfree] at hrec
        cases hrec
    | some id =>
        rw [hfree] at hrec
        unfold getFreeId at hfree
        obtain ⟨h1, h2, h3, h4⟩ := scanFreeId_eq_some (qmOccupied m) 65536 0 id hfree
        injection hrec with hpair
        injection hpair with hfut hm2
        subst hfut
        subst hm2
        exact ⟨show id < 65536 by omega, h1, rfl, rfl, rfl⟩
  · intro hfull
    unfold transportQuery
    rw [hiff.mpr hfull]
  · intro resp hfull hlen hlt
    have hkocc : getWireId resp ∈ qmOccupied m := hfull _ hlt
    obtain ⟨v, hv⟩ := qmLookup_isSome_of_mem m.queries (getWireId resp)
      (by simpa [qmOccupied] using hkocc)
    have hresp : (onResponse resp m).2 = ⟨qmErase m.queries (getWireId resp)⟩ := by
      unfold onResponse
      rw [if_neg (by omega), hv]
    rw [hresp]
    have hocc2 : ∀ i, i ∈ qmOccupied ⟨qmErase m.queries (getWireId resp)⟩ ↔
        i ∈ qmOccupied m ∧ i ≠ getWireId resp := by
      intro i
      exact qmErase_occupied m.queries (getWireId resp) i
    have hfree : getFreeId ⟨qmErase m.queries (getWireId resp)⟩ = some (getWireId resp) := by
      unfold getFreeId
      apply scanFreeId_finds
      · intro hmem
        exact absurd ((hocc2 _).mp hmem).2 (by simp)
      · intro i _ hik
        exact (hocc2 i).mpr ⟨hfull i (by omega), by omega⟩
      · exact Nat.zero_le _
      · omega
    unfold recordQuery
    rw [hfree]

/-- C4 witness: instantiation at the empty map and the query `[0, 2, 9]`. -/
theorem claim_C4_id_allocation_witness :
    (recordQuery [0, 2, 9] (⟨[]⟩ : DnsTlsQueryMap) = none ↔
      ∀ id, id < 65536 → id ∈ qmOccupied ⟨[]⟩) ∧
    (∀ fut m2, recordQuery [0, 2, 9] (⟨[]⟩ : DnsTlsQueryMap) = some (fut, m2) →
      fut.newId < 65536 ∧ fut.newId ∉ qmOccupied ⟨[]⟩ ∧
      fut.originalId = getWireId [0, 2, 9] ∧ fut.query = [0, 2, 9] ∧
      qmOccupied m2 = fut.newId :: qmOccupied ⟨[]⟩) ∧
    ((∀ id, id < 65536 → id ∈ qmOccupied (⟨[]⟩ : DnsTlsQueryMap)) →
      transportQuery ⟨[]⟩ [0, 2, 9] = (⟨[]⟩, some ⟨QMResponse.internal_error, []⟩)) ∧
    (∀ resp, (∀ id, id < 65536 → id ∈ qmOccupied (⟨[]⟩ : DnsTlsQueryMap)) →
      2 ≤ resp.length → getWireId resp < 65536 →
      recordQuery [0, 2, 9] (onResponse resp ⟨[]⟩).2 =
        some (⟨getWireId resp, getWireId [0, 2, 9], [0, 2, 9]⟩,
          ⟨[(getWireId resp, ⟨getWireId resp, getWireId [0, 2, 9], [0, 2, 9]⟩)]⟩)) :=
  claim_C4_id_allocation ⟨[]⟩ [0, 2, 9]

/-- C5: `onResponse` pairs a response with the pending entry named by the
wire id in its first two octets, resolves exactly that entry's future with
`success`, and the delivered bytes carry the caller's original id in the
first two octets with the response body unchanged after them; every other
pending entry is left in the map. -/
theorem claim_C5_response_pairing (m : DnsTlsQueryMap) (resp : List Nat) (fut : QMQuery)
    (hlen : 2 ≤ resp.length)
    (hfind : qmLookup m.queries (getWireId resp) = some fut)
    (hid : fut.originalId < 65536) :
    onResponse resp m =
      (some (getWireId resp, ⟨QMResponse.success, setWireId fut.originalId resp⟩),
        ⟨qmErase m.queries (getWireId resp)⟩) ∧
    (setWireId fut.originalId resp).drop 2 = resp.drop 2 ∧
    getWireId (setWireId fut.originalId resp) = fut.originalId ∧
    (∀ k, k ≠ getWireId resp →
      qmLookup (qmErase m.queries (getWireId resp)) k = qmLookup m.queries k) := by
  refine ⟨?_, ?_, ?_, fun k hk => qmLookup_erase_ne _ _ _ hk⟩
  · unfold onResponse
    rw [if_neg (by omega), hfind]
  · unfold setWireId
    simp
  · unfold getWireId setWireId
    simp only [List.getD_cons_zero, List.getD_cons_succ]
    omega

/-- C5 witness: a two-entry map answered out of order; the entry with wire
id 1 (original id 888) is resolved and the delivered bytes restore 888. -/
theorem claim_C5_response_pairing_witness :
    onResponse [0, 1, 5, 6]
        ⟨[(0, ⟨0, 999, [3, 231]⟩), (1, ⟨1, 888, [3, 120]⟩)]⟩ =
      (some (1, ⟨QMResponse.success, [3, 120, 5, 6]⟩),
        ⟨[(0, ⟨0, 999, [3, 231]⟩)]⟩) := by
  have h := claim_C5_response_pairing
    ⟨[(0, ⟨0, 999, [3, 231]⟩), (1, ⟨1, 888, [3, 120]⟩)]⟩ [0, 1, 5, 6]
    ⟨1, 888, [3, 120]⟩ (by decide) (by decide) (by decide)
  rw [h.1]
  rfl

end DnsResolver

namespace DnsResolver

/-! ### Part 3: private DNS configuration and validation

`PrivateDnsConfiguration` is not part of this tree; only its test is
(`PrivateDnsConfigurationTest.cpp`).  The state machine below is modelled
from the spec (§4.G, §3 "Validation status"): `set` validates every address
literal (rejecting the whole call with `-EINVAL` and no state change on a
single malformed literal), computes the mode, spawns an `in_process`
validation for every genuinely new server, and never restarts a validation
that is already `in_process` or `success`; a finishing validation worker
reports `success` only when its probe succeeded and its server is still
configured for the network, otherwise `fail`. -/

/-- Validation states (spec §3). -/
inductive Validation where
  | in_process
  | success
  | fail
deriving DecidableEq

/-- Private DNS modes (spec §3). -/
inductive PrivateDnsMode where
  | off
  | opportunistic
  | strict
deriving DecidableEq

/-- Association-list lookup. -/
def alookup {α β : Type} [DecidableEq α] : List (α × β) → α → Option β
  | [], _ => none
  | (k, v) :: rest, a => if k = a then some v else alookup rest a

/-- Association-list update (write `v` at key `k`). -/
def aupdate {α β : Type} [DecidableEq α] (k : α) (v : β) (l : List (α × β)) :
    List (α × β) :=
  (k, v) :: l.filter (fun p => decide (p.1 ≠ k))

/-- Association-list removal. -/
def aremove {α β : Type} [DecidableEq α] (k : α) (l : List (α × β)) : List (α × β) :=
  l.filter (fun p => decide (p.1 ≠ k))

/-- Modelled from the spec: the per-network private-DNS configuration (mode
and currently configured server set). -/
structure NetConfig where
  mode : PrivateDnsMode
  servers : List String
deriving DecidableEq

/-- Modelled from the spec: the component state — per-network configuration
plus the per-(netid, server) validation status map.  A (netid, server) whose
status is `in_process` has exactly one running validation worker. -/
structure PDnsState where
  cfg : List (Nat × NetConfig)
  states : List ((Nat × String) × Validation)
deriving DecidableEq

/-- An `onValidationStateUpdate(serverIp, validation, netId)` observer
notification. -/
structure Notification where
  server : String
  validation : Validation
  netId : Nat
deriving DecidableEq

/-- Modelled from the spec: digits-only parse of a decimal number. -/
def parseNatDigits (cs : List Char) : Option Nat :=
  if cs ≠ [] ∧ cs.all Char.isDigit then
    some (cs.foldl (fun n c => n * 10 + (c.toNat - 48)) 0)
  else none

/-- Split a character list at the dots (the separators of a dotted-quad
IPv4 literal). -/
def splitOnDot : List Char → List (List Char)
  | [] => [[]]
  | c :: rest =>
      let r := splitOnDot rest
      if c = '.' then [] :: r
      else (c :: r.headD []) :: r.tail

/-- Modelled from the spec: one dotted-quad octet (decimal, ≤ 255). -/
def isV4Octet (cs : List Char) : Bool :=
  match parseNatDigits cs with
  | some n => decide (n ≤ 255) && decide (cs.length ≤ 3)
  | none => false

/-- Modelled from the spec: address-literal validation — a dotted-quad IPv4
literal (four decimal octets ≤ 255) or a colon-separated IPv6 literal. -/
def isIpLiteral (s : String) : Bool :=
  (decide ((splitOnDot s.toList).length = 4) &&
    (splitOnDot s.toList).all isV4Octet) || s.toList.contains ':'

/-- Modelled from the spec: `added = new_servers − existing_in_process_or_success`
(the servers whose validation must be started by this `set` call). -/
def addedServers (netId : Nat) (servers : List String) (st : PDnsState) : List String :=
  servers.dedup.filter (fun s =>
    match alookup st.states (netId, s) with
    | some Validation.in_process => false
    | some Validation.success => false
    | _ => true)

/-- Modelled from the spec: `set(netid, mark, servers, hostname)`.  Returns
(status code, new state, observer notifications): `-EINVAL` with no state
change and no notifications when any literal is malformed; otherwise the
mode is recomputed, an `in_process` entry is created (and a worker notified)
for each added server, and existing validations are not restarted. -/
def privateDnsSet (netId _mark : Nat) (servers : List String) (hostname : String)
    (st : PDnsState) : Int × PDnsState × List Notification :=
  if servers.any (fun s => !(isIpLiteral s)) then (-22, st, [])
  else
    let mode := if hostname ≠ "" then PrivateDnsMode.strict
      else if servers ≠ [] then PrivateDnsMode.opportunistic
      else PrivateDnsMode.off
    let added := addedServers netId servers st
    let states2 := added.foldl
      (fun acc s => aupdate (netId, s) Validation.in_process acc) st.states
    (0, ⟨aupdate netId ⟨mode, servers.dedup⟩ st.cfg, states2⟩,
      added.map (fun s => ⟨s, Validation.in_process, netId⟩))

/-- Modelled from the spec: `clear(netid)` (network destroyed) — the
network's configuration disappears; in-flight validations keep running and
will be observed to terminate. -/
def privateDnsClear (netId : Nat) (st : PDnsState) : PDnsState :=
  ⟨aremove netId st.cfg, st.states⟩

/-- Modelled from the spec: a validation worker for (netid, server)
finishes, its probe having succeeded iff `probeOk`.  The reported state is
`success` only if the probe succeeded and the server is still configured
for the network; otherwise `fail` (also for destroyed networks and servers
no longer present, whose entry is dropped from the status map). -/
def finishValidation (netId : Nat) (server : String) (probeOk : Bool)
    (st : PDnsState) : PDnsState × List Notification :=
  match alookup st.states (netId, server) with
  | some Validation.in_process =>
      let configured := match alookup st.cfg netId with
        | some c => c.servers.contains server
        | none => false
      let result := if configured && probeOk then Validation.success else Validation.fail
      (⟨st.cfg,
        if configured then aupdate (netId, server) result st.states
        else aremove (netId, server) st.states⟩,
        [⟨server, result, netId⟩])
  | _ => (st, [])

/-- The events driving the configuration component. -/
inductive PDnsEvent where
  | setConfig (netId mark : Nat) (servers : List String) (hostname : String)
  | clearNet (netId : Nat)
  | finish (netId : Nat) (server : String) (probeOk : Bool)
deriving DecidableEq

/-- One step of the component: the state change and the notifications it
emits. -/
def pdnsStep (st : PDnsState) : PDnsEvent → PDnsState × List Notification
  | .setConfig n m ss h =>
      ((privateDnsSet n m ss h st).2.1, (privateDnsSet n m ss h st).2.2)
  | .clearNet n => (privateDnsClear n st, [])
  | .finish n s ok => finishValidation n s ok st

/-- Run a sequence of events, collecting all notifications in order. -/
def pdnsRun (st : PDnsState) : List PDnsEvent → PDnsState × List Notification
  | [] => (st, [])
  | e :: es =>
      ((pdnsRun (pdnsStep st e).1 es).1,
        (pdnsStep st e).2 ++ (pdnsRun (pdnsStep st e).1 es).2)

/-- The initial state: no networks, no validations. -/
def pdnsInit : PDnsState := ⟨[], []⟩

/-- The notifications observed for one (netid, server), in order. -/
def projNotifs (netId : Nat) (server : String) (ns : List Notification) :
    List Validation :=
  (ns.filter (fun n => n.netId == netId && n.server == server)).map
    (fun n => n.validation)

/-- A valid observer sequence for one server, given whether a validation
episode is currently open: episodes open with `in_process` and close with
exactly one terminal state. -/
def okSeq : List Validation → Bool → Bool
  | [], _ => true
  | Validation.in_process :: rest, false => okSeq rest true
  | Validation.in_process :: _, true => false
  | _ :: rest, true => okSeq rest false
  | _ :: _, false => false

/-- Whether an episode is open after observing a sequence, starting from
`b`. -/
def seqOpenAfter (b : Bool) (l : List Validation) : Bool :=
  l.foldl (fun _ v => v == Validation.in_process) b

/-- Whether (netid, server) currently has a running validation worker
(status `in_process`). -/
def isInProcess (st : PDnsState) (netId : Nat) (server : String) : Bool :=
  alookup st.states (netId, server) == some Validation.in_process

end DnsResolver

namespace DnsResolver

theorem alookup_aupdate_self {α β : Type} [DecidableEq α] (k : α) (v : β)
    (l : List (α × β)) : alookup (aupdate k v l) k = some v := by
  unfold aupdate
  rw [alookup, if_pos rfl]

theorem alookup_filter_ne {α β : Type} [DecidableEq α] (k k2 : α) (l : List (α × β))
    (h : k2 ≠ k) : alookup (l.filter (fun p => decide (p.1 ≠ k))) k2 = alookup l k2 := by
  induction l with
  | nil => rfl
  | cons p rest ih =>
      rw [List.filter_cons]
      by_cases hp : p.1 = k
      · have hd : (decide (p.1 ≠ k)) = false := by simp [hp]
        rw [hd]
        simp only [Bool.false_eq_true, if_false]
        rw [ih, alookup, if_neg (fun hk => h (by rw [← hk]; exact hp))]
      · have hd : (decide (p.1 ≠ k)) = true := by simp [hp]
        rw [hd]
        simp only [if_true]
        rw [alookup, alookup, ih]

theorem alookup_filter_self {α β : Type} [DecidableEq α] (k : α) (l : List (α × β)) :
    alookup (l.filter (fun p => decide (p.1 ≠ k))) k = none := by
  induction l with
  | nil => rfl
  | cons p rest ih =>
      rw [List.filter_cons]
      by_cases hp : p.1 = k
      · have hd : (decide (p.1 ≠ k)) = false := by simp [hp]
        rw [hd]
        simp only [Bool.false_eq_true, if_false]
        exact ih
      · have hd : (decide (p.1 ≠ k)) = true := by simp [hp]
        rw [hd]
        simp only [if_true]
        rw [alookup, if_neg hp, ih]

theorem alookup_aupdate_ne {α β : Type} [DecidableEq α] (k k2 : α) (v : β)
    (l : List (α × β)) (h : k2 ≠ k) : alookup (aupdate k v l) k2 = alookup l k2 := by
  unfold aupdate
  rw [alookup, if_neg (fun hk => h hk.symm)]
  exact alookup_filter_ne k k2 l h

theorem alookup_aremove_ne {α β : Type} [DecidableEq α] (k k2 : α)
    (l : List (α × β)) (h : k2 ≠ k) : alookup (aremove k l) k2 = alookup l k2 :=
  alookup_filter_ne k k2 l h

theorem alookup_aremove_self {α β : Type} [DecidableEq α] (k : α)
    (l : List (α × β)) : alookup (aremove k l) k = none :=
  alookup_filter_self k l

theorem alookup_foldl_update (added : List String) (netId : Nat)
    (states : List ((Nat × String) × Validation)) (k1 : Nat) (k2 : String) :
    alookup (added.foldl (fun acc s => aupdate (netId, s) Validation.in_process acc) states)
        (k1, k2) =
      if k1 = netId ∧ k2 ∈ added then some Validation.in_process
      else alookup states (k1, k2) := by
  induction added generalizing states with
  | nil => simp
  | cons a rest ih =>
      rw [List.foldl_cons, ih]
      by_cases hmem : k1 = netId ∧ k2 ∈ rest
      · rw [if_pos hmem, if_pos ⟨hmem.1, List.mem_cons_of_mem a hmem.2⟩]
      · rw [if_neg hmem]
        by_cases hka : (k1, k2) = (netId, a)
        · obtain ⟨h1, h2⟩ := Prod.mk.injEq .. ▸ hka
          rw [hka, alookup_aupdate_self,
            if_pos ⟨h1, h2 ▸ List.mem_cons_self a rest⟩]
        · rw [alookup_aupdate_ne _ _ _ _ hka, if_neg ?hne]
          case hne =>
            rintro ⟨hh1, hh2⟩
            rcases List.mem_cons.mp hh2 with hh2 | hh2
            · exact hka (by rw [hh1, hh2])
            · exact hmem ⟨hh1, hh2⟩

theorem projNotifs_append (netId : Nat) (server : String) (l1 l2 : List Notification) :
    projNotifs netId server (l1 ++ l2) =
      projNotifs netId server l1 ++ projNotifs netId server l2 := by
  unfold projNotifs
  rw [List.filter_append, List.map_append]

theorem projNotifs_cons (netId : Nat) (server : String) (nt : Notification)
    (rest : List Notification) :
    projNotifs netId server (nt :: rest) =
      if nt.netId = netId ∧ nt.server = server
      then nt.validation :: projNotifs netId server rest
      else projNotifs netId server rest := by
  unfold projNotifs
  rw [List.filter_cons]
  by_cases h1 : nt.netId = netId <;> by_cases h2 : nt.server = server <;>
    simp [h1, h2]

theorem validation_beq_ip_ip :
    (Validation.in_process == Validation.in_process) = true := rfl

theorem validation_beq_success_ip :
    (Validation.success == Validation.in_process) = false := rfl

theorem validation_beq_fail_ip :
    (Validation.fail == Validation.in_process) = false := rfl

theorem seqOpenAfter_append (b : Bool) (l1 l2 : List Validation) :
    seqOpenAfter b (l1 ++ l2) = seqOpenAfter (seqOpenAfter b l1) l2 := by
  unfold seqOpenAfter
  rw [List.foldl_append]

theorem okSeq_append (l1 l2 : List Validation) (b : Bool) :
    okSeq (l1 ++ l2) b = (okSeq l1 b && okSeq l2 (seqOpenAfter b l1)) := by
  induction l1 generalizing b with
  | nil => simp [okSeq, seqOpenAfter]
  | cons v rest ih =>
      cases v <;> cases b <;>
        simp [okSeq, seqOpenAfter, ih, List.foldl_cons, validation_beq_ip_ip,
          validation_beq_success_ip, validation_beq_fail_ip]

theorem projNotifs_map_in_process (netId n : Nat) (server : String)
    (added : List String) (hnd : added.Nodup) :
    projNotifs netId server (added.map (fun s => ⟨s, Validation.in_process, n⟩)) =
      if n = netId ∧ server ∈ added then [Validation.in_process] else [] := by
  induction added with
  | nil => simp [projNotifs]
  | cons a rest ih =>
      obtain ⟨hna, hnd2⟩ := List.nodup_cons.mp hnd
      rw [List.map_cons, projNotifs_cons, ih hnd2]
      by_cases hn : n = netId <;> by_cases hs : a = server
      · rw [if_pos ⟨hn, hs⟩, if_neg (fun h => hna (hs ▸ h.2)),
          if_pos ⟨hn, hs ▸ List.mem_cons_self a rest⟩]
      · rw [if_neg (fun h => hs h.2)]
        by_cases hmem : server ∈ rest
        · rw [if_pos ⟨hn, hmem⟩, if_pos ⟨hn, List.mem_cons_of_mem a hmem⟩]
        · rw [if_neg (fun h => hmem h.2), if_neg ?hne1]
          case hne1 =>
            rintro ⟨-, hh⟩
            rcases List.mem_cons.mp hh with hh | hh
            · exact hs hh.symm
            · exact hmem hh
      · rw [if_neg (fun h => hn h.1), if_neg (fun h => hn h.1),
          if_neg (fun h => hn h.1)]
      · rw [if_neg (fun h => hn h.1), if_neg (fun h => hn h.1),
          if_neg (fun h => hn h.1)]

end DnsResolver

namespace DnsResolver

theorem addedServers_nodup (netId : Nat) (servers : List String) (st : PDnsState) :
    (addedServers netId servers st).Nodup :=
  List.Nodup.filter _ (List.nodup_dedup servers)

theorem addedServers_not_in_process (netId : Nat) (servers : List String)
    (st : PDnsState) (s : String) (hmem : s ∈ addedServers netId servers st) :
    alookup st.states (netId, s) ≠ some Validation.in_process ∧
    alookup st.states (netId, s) ≠ some Validation.success := by
  have hp := (List.mem_filter.mp hmem).2
  rcases hl : alookup st.states (netId, s) with _ | v
  · exact ⟨by simp, by simp⟩
  · cases v with
    | in_process => rw [hl] at hp; cases hp
    | success => rw [hl] at hp; cases hp
    | fail => exact ⟨by simp, by simp⟩

theorem ite_true_eq {α : Type} (a b : α) : (if true = true then a else b) = a := rfl

theorem ite_false_eq {α : Type} (a b : α) : (if false = true then a else b) = b := rfl

theorem pdnsStep_proj (st : PDnsState) (e : PDnsEvent) (netId : Nat) (server : String) :
    okSeq (projNotifs netId server (pdnsStep st e).2) (isInProcess st netId server) = true ∧
    seqOpenAfter (isInProcess st netId server) (projNotifs netId server (pdnsStep st e).2) =
      isInProcess (pdnsStep st e).1 netId server := by
  cases e with
  | clearNet n => exact ⟨rfl, rfl⟩
  | setConfig n m ss h =>
      simp only [pdnsStep]
      unfold privateDnsSet
      by_cases hbad : (ss.any (fun s => !(isIpLiteral s))) = true
      · rw [if_pos hbad]
        exact ⟨rfl, rfl⟩
      · rw [if_neg hbad]
        simp only []
        rw [projNotifs_map_in_process _ _ _ _ (addedServers_nodup n ss st)]
        by_cases hcase : n = netId ∧ server ∈ addedServers n ss st
        · obtain ⟨hn, hmem⟩ := hcase
          subst hn
          rw [if_pos ⟨rfl, hmem⟩]
          have hnotip : isInProcess st n server = false := by
            unfold isInProcess
            rcases hl : alookup st.states (n, server) with _ | v
            · rfl
            · have := addedServers_not_in_process n ss st server hmem
              cases v with
              | in_process => exact absurd hl this.1
              | success => rfl
              | fail => rfl
          rw [hnotip]
          refine ⟨rfl, ?_⟩
          unfold isInProcess
          rw [alookup_foldl_update, if_pos ⟨rfl, hmem⟩]
          rfl
        · rw [if_neg hcase]
          refine ⟨rfl, ?_⟩
          show isInProcess st netId server = _
          unfold isInProcess
          rw [alookup_foldl_update,
            if_neg (fun hcontra => hcase ⟨hcontra.1.symm, hcontra.2⟩)]
  | finish n s ok =>
      simp only [pdnsStep]
      unfold finishValidation
      rcases hl : alookup st.states (n, s) with _ | v
      · simp only [hl]
        exact ⟨rfl, rfl⟩
      · cases v with
        | success =>
            simp only [hl]
            exact ⟨rfl, rfl⟩
        | fail =>
            simp only [hl]
            exact ⟨rfl, rfl⟩
        | in_process =>
            simp only [hl]
            rw [projNotifs_cons]
            by_cases hkey : n = netId ∧ s = server
            · obtain ⟨hn, hs⟩ := hkey
              subst hn
              subst hs
              rw [if_pos ⟨rfl, rfl⟩]
              have hip : isInProcess st n s = true := by
                unfold isInProcess
                rw [hl]
                rfl
              rw [hip]
              cases hcfg : (match alookup st.cfg n with
                  | some c => c.servers.contains s
                  | none => false) <;>
                cases ok <;>
                refine ⟨rfl, ?_⟩ <;>
                unfold isInProcess <;>
                simp only [Bool.false_and, Bool.true_and, Bool.and_false, Bool.and_true,
                  ite_true_eq, ite_false_eq, if_true, if_false] <;>
                first
                  | (rw [alookup_aremove_self]; rfl)
                  | (rw [alookup_aupdate_self]; rfl)
            · rw [if_neg (fun hc => hkey ⟨hc.1, hc.2⟩)]
              refine ⟨rfl, ?_⟩
              show isInProcess st netId server = _
              have hne : (netId, server) ≠ (n, s) := by
                intro hcontra
                injection hcontra with a b
                exact hkey ⟨a.symm, b.symm⟩
              unfold isInProcess
              cases hcfg : (match alookup st.cfg n with
                  | some c => c.servers.contains s
                  | none => false) <;>
                simp only [ite_true_eq, ite_false_eq, if_true, if_false] <;>
                first
                  | rw [alookup_aremove_ne _ _ _ hne]
                  | rw [alookup_aupdate_ne _ _ _ _ hne]

end DnsResolver

namespace DnsResolver

theorem pdnsRun_proj (es : List PDnsEvent) (st : PDnsState) (netId : Nat)
    (server : String) :
    okSeq (projNotifs netId server (pdnsRun st es).2) (isInProcess st netId server) = true ∧
    seqOpenAfter (isInProcess st netId server) (projNotifs netId server (pdnsRun st es).2) =
      isInProcess (pdnsRun st es).1 netId server := by
  induction es generalizing st with
  | nil => exact ⟨rfl, rfl⟩
  | cons e rest ih =>
      obtain ⟨hs1, hs2⟩ := pdnsStep_proj st e netId server
      obtain ⟨hr1, hr2⟩ := ih (pdnsStep st e).1
      constructor
      · show okSeq (projNotifs netId server
            ((pdnsStep st e).2 ++ (pdnsRun (pdnsStep st e).1 rest).2)) _ = true
        rw [projNotifs_append, okSeq_append, hs1, hs2, hr1]
        rfl
      · show seqOpenAfter _ (projNotifs netId server
            ((pdnsStep st e).2 ++ (pdnsRun (pdnsStep st e).1 rest).2)) = _
        rw [projNotifs_append, seqOpenAfter_append, hs2, hr2]
        rfl

/-- C6: a `set` call whose server list contains a malformed address literal
returns `-EINVAL` (-22) and leaves the private-DNS state exactly as it was,
emitting no observer notification. -/
theorem claim_C6_invalid_literal (st : PDnsState) (netId mark : Nat)
    (servers : List String) (hostname : String)
    (hbad : ∃ s ∈ servers, isIpLiteral s = false) :
    privateDnsSet netId mark servers hostname st = (-22, st, []) := by
  unfold privateDnsSet
  rw [if_pos (show (servers.any (fun s => !(isIpLiteral s))) = true by
    rw [List.any_eq_true]
    obtain ⟨s, hs, hfalse⟩ := hbad
    exact ⟨s, hs, by simp [hfalse]⟩)]

/-- C6 witness: `set` with the malformed literal `invalid_addr` on the
initial state. -/
theorem claim_C6_invalid_literal_witness :
    privateDnsSet 30 30 ["invalid_addr"] "" pdnsInit = (-22, pdnsInit, []) :=
  claim_C6_invalid_literal pdnsInit 30 30 ["invalid_addr"] ""
    ⟨"invalid_addr", by decide, by decide⟩

/-- C7: for every event trace from the initial state and every
(netid, server), the observer notifications for that server form an
alternation of `in_process` followed by exactly one terminal state per
episode (with an episode open at the end iff that server's status is
`in_process`, i.e. exactly one worker is running); and re-invoking `set`
with a list still containing a server whose validation is `in_process` or
`success` adds no new validation for it, emits no notification for it, and
leaves its status entry untouched. -/
theorem claim_C7_validation_episode (es : List PDnsEvent) (netId : Nat) (server : String) :
    (okSeq (projNotifs netId server (pdnsRun pdnsInit es).2) false = true ∧
      seqOpenAfter false (projNotifs netId server (pdnsRun pdnsInit es).2) =
        isInProcess (pdnsRun pdnsInit es).1 netId server) ∧
    (∀ st mark servers hostname,
      (alookup st.states (netId, server) = some Validation.in_process ∨
        alookup st.states (netId, server) = some Validation.success) →
      server ∉ addedServers netId servers st ∧
      ((privateDnsSet netId mark servers hostname st).2.2).all
        (fun nt => !(nt.server == server)) = true ∧
      alookup ((privateDnsSet netId mark servers hostname st).2.1).states (netId, server) =
        alookup st.states (netId, server)) := by
  constructor
  · exact pdnsRun_proj es pdnsInit netId server
  · intro st mark servers hostname hcur
    have hnot : server ∉ addedServers netId servers st := by
      intro hmem
      have h2 := addedServers_not_in_process netId servers st server hmem
      rcases hcur with hcur | hcur
      · exact h2.1 hcur
      · exact h2.2 hcur
    refine ⟨hnot, ?_, ?_⟩
    · unfold privateDnsSet
      by_cases hbad : (servers.any (fun s => !(isIpLiteral s))) = true
      · rw [if_pos hbad]
        rfl
      · rw [if_neg hbad]
        simp only []
        rw [List.all_eq_true]
        intro nt hnt
        rw [List.mem_map] at hnt
        obtain ⟨a, ha, rfl⟩ := hnt
        have hne : a ≠ server := fun he => hnot (he ▸ ha)
        simp [hne]
    · unfold privateDnsSet
      by_cases hbad : (servers.any (fun s => !(isIpLiteral s))) = true
      · rw [if_pos hbad]
      · rw [if_neg hbad]
        simp only []
        rw [alookup_foldl_update, if_neg (fun hcontra => hnot hcontra.2)]

/-- C7 witness: a concrete trace — configure server `127.0.2.2` on network
30 and let its validation succeed. -/
theorem claim_C7_validation_episode_witness :
    (okSeq (projNotifs 30 "127.0.2.2"
        (pdnsRun pdnsInit [PDnsEvent.setConfig 30 30 ["127.0.2.2"] "",
          PDnsEvent.finish 30 "127.0.2.2" true]).2) false = true ∧
      seqOpenAfter false (projNotifs 30 "127.0.2.2"
        (pdnsRun pdnsInit [PDnsEvent.setConfig 30 30 ["127.0.2.2"] "",
          PDnsEvent.finish 30 "127.0.2.2" true]).2) =
        isInProcess (pdnsRun pdnsInit [PDnsEvent.setConfig 30 30 ["127.0.2.2"] "",
          PDnsEvent.finish 30 "127.0.2.2" true]).1 30 "127.0.2.2") ∧
    (∀ st mark servers hostname,
      (alookup st.states (30, "127.0.2.2") = some Validation.in_process ∨
        alookup st.states (30, "127.0.2.2") = some Validation.success) →
      "127.0.2.2" ∉ addedServers 30 servers st ∧
      ((privateDnsSet 30 mark servers hostname st).2.2).all
        (fun nt => !(nt.server == "127.0.2.2")) = true ∧
      alookup ((privateDnsSet 30 mark servers hostname st).2.1).states (30, "127.0.2.2") =
        alookup st.states (30, "127.0.2.2")) :=
  claim_C7_validation_episode
    [PDnsEvent.setConfig 30 30 ["127.0.2.2"] "", PDnsEvent.finish 30 "127.0.2.2" true]
    30 "127.0.2.2"

end DnsResolver

namespace DnsResolver

/-! ### Part 4: server identity and the pipeline's retry discipline

`DnsTlsServer`/`ServerIdentity` (from `PrivateDnsConfiguration.h`) and the
`res_send` retry loop are not part of this tree; the definitions are
modelled from the spec, with the identity comparison pinned by
`PrivateDnsConfigurationTest.ServerIdentity_Comparison` and the retry counts
pinned by `ResolverTest.Async_NoRetryFlag`. -/

/-- An IP socket address: address plus port. -/
structure IPSockAddr where
  ip : String
  port : Nat
deriving DecidableEq

/-- Modelled from the spec: a DNS-over-TLS server — socket address,
provider hostname, protocol tag. -/
structure DnsTlsServer where
  ss : IPSockAddr
  name : String
  protocol : Nat
deriving DecidableEq

/-- Modelled from the spec: `ServerIdentity`, the triple
(ip address, provider hostname, protocol); the port is dropped. -/
structure ServerIdentity where
  sockaddr_ip : String
  provider : String
  protocol : Nat
deriving DecidableEq

/-- Modelled from the spec: the `ServerIdentity(server)` constructor. -/
def serverIdentityOf (s : DnsTlsServer) : ServerIdentity :=
  ⟨s.ss.ip, s.name, s.protocol⟩

/-- Modelled from the spec: the resolution pipeline's attempt schedule for
one query over the configured servers.  Without `NO_RETRY`, `retry_count`
rounds are made, each sending one attempt to every server; with `NO_RETRY`
a single attempt is made on one (randomly selected — here by the index
`chosen`) server, as observed by `ResolverTest.Async_NoRetryFlag` (two
NO_RETRY resolutions over two all-dropping servers produce 2 upstream
queries in total, one each). -/
def attemptSchedule (noRetry : Bool) (retryCount : Nat) (servers : List String)
    (chosen : Nat) : List String :=
  if noRetry then
    if servers.isEmpty then []
    else [servers.getD (chosen % servers.length) ""]
  else (List.replicate retryCount servers).flatten

theorem count_join_replicate (r : Nat) (l : List String) (s : String) :
    ((List.replicate r l).flatten).count s = r * l.count s := by
  induction r with
  | zero => simp
  | succ r ih =>
      rw [List.replicate_succ, List.flatten_cons, List.count_append, ih, Nat.succ_mul]
      omega

/-- C8: two servers have equal identities iff their (ip, hostname,
protocol) triples match — the port is ignored; concretely, identities are
equal across ports 853/5353 and unequal for a changed ip, hostname (also
empty vs non-empty) or protocol. -/
theorem claim_C8_server_identity (s1 s2 : DnsTlsServer) :
    (serverIdentityOf s1 = serverIdentityOf s2 ↔
      (s1.ss.ip = s2.ss.ip ∧ s1.name = s2.name ∧ s1.protocol = s2.protocol)) ∧
    serverIdentityOf ⟨⟨"127.0.0.1", 853⟩, "dns.example.com", 1⟩ =
      serverIdentityOf ⟨⟨"127.0.0.1", 5353⟩, "dns.example.com", 1⟩ ∧
    serverIdentityOf ⟨⟨"127.0.0.1", 853⟩, "dns.example.com", 1⟩ ≠
      serverIdentityOf ⟨⟨"127.0.0.2", 853⟩, "dns.example.com", 1⟩ ∧
    serverIdentityOf ⟨⟨"127.0.0.1", 853⟩, "dns.example.com", 1⟩ ≠
      serverIdentityOf ⟨⟨"127.0.0.1", 853⟩, "other.example.com", 1⟩ ∧
    serverIdentityOf ⟨⟨"127.0.0.1", 853⟩, "dns.example.com", 1⟩ ≠
      serverIdentityOf ⟨⟨"127.0.0.1", 853⟩, "", 1⟩ ∧
    serverIdentityOf ⟨⟨"127.0.0.1", 853⟩, "dns.example.com", 1⟩ ≠
      serverIdentityOf ⟨⟨"127.0.0.1", 853⟩, "dns.example.com", 2⟩ := by
  refine ⟨?_, by decide, by decide, by decide, by decide, by decide⟩
  unfold serverIdentityOf
  constructor
  · intro h
    injection h with h1 h2 h3
    exact ⟨h1, h2, h3⟩
  · rintro ⟨h1, h2, h3⟩
    rw [h1, h2, h3]

/-- C9 counterexample: with two all-failing servers and `NO_RETRY`, the
attempt schedule is a single attempt in total — the claim's "exactly one
attempt per server" fails: the unchosen server receives no attempt. -/
theorem claim_C9_counterexample :
    ¬ (∀ s ∈ ["127.0.0.4", "127.0.0.6"],
        (attemptSchedule true 2 ["127.0.0.4", "127.0.0.6"] 0).count s = 1) := by
  decide

/-- C9 (amended): with `NO_RETRY` the pipeline performs exactly one attempt
in total, on one selected configured server, before failing the query;
without `NO_RETRY` it performs `retry_count` attempts per server. -/
theorem claim_C9_no_retry_single_attempt (retryCount : Nat) (servers : List String)
    (chosen : Nat) (hne : servers ≠ []) :
    (attemptSchedule true retryCount servers chosen).length = 1 ∧
    (attemptSchedule true retryCount servers chosen).getD 0 "" ∈ servers ∧
    (∀ s, (attemptSchedule false retryCount servers chosen).count s =
      retryCount * servers.count s) := by
  have hem : servers.isEmpty = false := by
    cases servers with
    | nil => exact absurd rfl hne
    | cons a rest => rfl
  refine ⟨?_, ?_, ?_⟩
  · unfold attemptSchedule
    rw [if_pos rfl, hem, ite_false_eq]
    rfl
  · unfold attemptSchedule
    rw [if_pos rfl, hem, ite_false_eq]
    have hlt : chosen % servers.length < servers.length :=
      Nat.mod_lt _ (by cases servers with
        | nil => exact absurd rfl hne
        | cons a rest => simp)
    rw [List.getD_cons_zero, List.getD_eq_getElem _ _ hlt]
    exact List.getElem_mem hlt
  · intro s
    show ((List.replicate retryCount servers).flatten).count s = _
    exact count_join_replicate retryCount servers s

end DnsResolver

namespace DnsResolver

/-- C9 witness: the two-server configuration of the NO_RETRY test, with the
default `retry_count = 2`. -/
theorem claim_C9_no_retry_single_attempt_witness :
    (attemptSchedule true 2 ["127.0.0.4", "127.0.0.6"] 0).length = 1 ∧
    (attemptSchedule true 2 ["127.0.0.4", "127.0.0.6"] 0).getD 0 "" ∈
      (["127.0.0.4", "127.0.0.6"] : List String) ∧
    (∀ s, (attemptSchedule false 2 ["127.0.0.4", "127.0.0.6"] 0).count s =
      2 * (["127.0.0.4", "127.0.0.6"] : List String).count s) :=
  claim_C9_no_retry_single_attempt 2 ["127.0.0.4", "127.0.0.6"] 0 (by decide)

end DnsResolver
